import Mathlib

/-!
Shallow embedding of `src/client/components/BoatCustomziator/Sketch/Boat/index.ts`
(the `Boat` class): scene-graph traversal and classification, per-part material
construction, bounding-box normalization, placeholder filtering, the query
operations and disposal.  Numeric values are exact rationals; the one irrational
quantity of the source, the root scale `2 / Math.hypot(...size)`, is tracked
through its square `4 / normSq size`, which determines the nonnegative scale
uniquely.
-/

namespace BoatModel

/-- A 3-component vector with exact rational coordinates (models `THREE.Vector3`
and `THREE.Color`). -/
structure Vec3 where
  x : ℚ
  y : ℚ
  z : ℚ
deriving DecidableEq, Repr

/-- Squared Euclidean norm; the source's `Math.hypot(...this.size.toArray())`
is its (real) square root. -/
def Vec3.normSq (v : Vec3) : ℚ :=
  v.x ^ 2 + v.y ^ 2 + v.z ^ 2

/-- Squared Euclidean distance between two points. -/
def distSq (a b : Vec3) : ℚ :=
  (a.x - b.x) ^ 2 + (a.y - b.y) ^ 2 + (a.z - b.z) ^ 2

/-- A node of the loaded GLTF scene graph (models `THREE.Object3D`): `typeTag`
is the `object.type` string (`"Mesh"`, `"Object3D"`, `"Group"`, ...), `name`
the node name, `position` the local position, `localScale` the node's own
uniform scale, `vertices` the geometry vertices of a mesh node (empty
otherwise), `children` the child nodes in order. -/
inductive SceneNode : Type where
  | mk (typeTag name : String) (position : Vec3) (localScale : ℚ)
      (vertices : List Vec3) (children : List SceneNode)

/-- The `object.type` tag of a node. -/
def SceneNode.typeTag : SceneNode → String
  | .mk t _ _ _ _ _ => t

/-- The `object.name` of a node. -/
def SceneNode.name : SceneNode → String
  | .mk _ n _ _ _ _ => n

/-- The local `object.position` of a node. -/
def SceneNode.position : SceneNode → Vec3
  | .mk _ _ p _ _ _ => p

/-- The node's own uniform scale. -/
def SceneNode.localScale : SceneNode → ℚ
  | .mk _ _ _ s _ _ => s

/-- The geometry vertices of a node. -/
def SceneNode.vertices : SceneNode → List Vec3
  | .mk _ _ _ _ v _ => v

/-- The children of a node, in order. -/
def SceneNode.children : SceneNode → List SceneNode
  | .mk _ _ _ _ _ c => c

mutual

/-- `Object3D.traverse` visit order: the node itself first, then each child's
traversal, depth-first in child order. -/
def SceneNode.traverseList : SceneNode → List SceneNode
  | .mk t n p s v cs => .mk t n p s v cs :: traverseChildren cs

/-- Traversal of a list of sibling subtrees, in order. -/
def traverseChildren : List SceneNode → List SceneNode
  | [] => []
  | c :: cs => c.traverseList ++ traverseChildren cs

end

mutual

/-- The visit order of `gltf.scene.traverse` in the second pass
(`addPlaceholders`): by then `this.add(...this.parts)` (line 105) has
reparented every `"Mesh"`-typed node — `Object3D.add` removes an object from
its previous parent — so each subtree rooted at a mesh node has been detached
from the scene and is no longer visited. The traversal start itself is always
visited (`traverse` begins at the object it is called on); pruning applies to
the children below it. -/
def SceneNode.traverseListPruned : SceneNode → List SceneNode
  | .mk t n p s v cs => .mk t n p s v cs :: traverseChildrenPruned cs

/-- Pruned traversal of sibling subtrees: a mesh-typed child was reparented
out of the scene, so neither it nor anything below it is visited. -/
def traverseChildrenPruned : List SceneNode → List SceneNode
  | [] => []
  | c :: cs =>
      (if c.typeTag == "Mesh" then [] else c.traverseListPruned)
        ++ traverseChildrenPruned cs

end

/-- A texture resource (models `THREE.Texture`): `payload` stands for all of the
texture's state other than the two flags `prepareTextures` touches. -/
structure Texture where
  payload : ℕ
  flipY : Bool
  generateMipmaps : Bool
deriving DecidableEq, Repr

/-- The source's three-slot `BoatTextures` bundle (the `metallnessMapPath`
spelling is the source's). -/
structure BoatTextures where
  map : Texture
  occlusionRoughnessMetallicMap : Texture
  metallnessMapPath : Texture
deriving DecidableEq, Repr

/-- One entry of `CustomizationConfig.customization`; only `placeholderLabel`
is read by the `Boat` class. -/
structure CustomizationEntry where
  placeholderLabel : String
deriving DecidableEq, Repr

/-- The externally supplied `CustomizationConfig`: `transparentParts` maps a
node name to an opacity (absent keys are JS `undefined`, here `none`),
`customization` maps a placeholder key to its entry. -/
structure CustomizationConfig where
  transparentParts : String → Option ℚ
  customization : String → Option CustomizationEntry

/-- JS truthiness of a `number | undefined` value: `undefined` and `0` are
falsy. -/
def jsTruthy : Option ℚ → Bool
  | none => false
  | some v => v != 0

/-- JS `a || b` on `number | undefined` values: `b` when `a` is falsy. -/
def jsOr (a b : Option ℚ) : Option ℚ :=
  if jsTruthy a then a else b

/-- JS `a !== undefined` on a `number | undefined` value. -/
def jsIsDefined (a : Option ℚ) : Bool :=
  a.isSome

/-- JS `a < b` between a `number | undefined` value and a number: comparison
against `undefined` is false, otherwise numeric. -/
def jsLtNum (a : Option ℚ) (b : ℚ) : Bool :=
  match a with
  | none => false
  | some v => decide (v < b)

/-- Line 84 of the source: `opacity: transparentParts[name] || 1` (the result
of `||` with a truthy right operand is always a defined number; `getD 0` merely
extracts it). -/
def opacityValue (cfg : CustomizationConfig) (name : String) : ℚ :=
  (jsOr (cfg.transparentParts name) (some 1)).getD 0

/-- Line 85 of the source, exactly as written:
`(transparentParts[name] || 1) !== undefined && (transparentParts[name] || 1) < 1`. -/
def transparentFlag (cfg : CustomizationConfig) (name : String) : Bool :=
  jsIsDefined (jsOr (cfg.transparentParts name) (some 1))
    && jsLtNum (jsOr (cfg.transparentParts name) (some 1)) 1

/-- The transparency computation with the definedness conjunct removed, for
comparison with the source's form (the spec calls that conjunct structurally
dead). -/
def transparentFlagSimple (cfg : CustomizationConfig) (name : String) : Bool :=
  jsLtNum (jsOr (cfg.transparentParts name) (some 1)) 1

/-- A constructed material (models the `MeshStandardMaterial` of lines 75-93).
`instanceId` is the allocation number distinguishing material instances: every
`new MeshStandardMaterial(...)` yields a fresh one. -/
structure Material where
  instanceId : ℕ
  map : Texture
  roughnessMap : Texture
  metalnessMap : Texture
  opacity : ℚ
  transparent : Bool
  envMapIntensity : ℚ
  metalness : ℚ
  color : Vec3
deriving DecidableEq, Repr

/-- The `new MeshStandardMaterial({...})` call of `addParts` (lines 75-93). -/
def mkPartMaterial (textures : BoatTextures) (cfg : CustomizationConfig)
    (name : String) (freshId : ℕ) : Material :=
  { instanceId := freshId
    map := textures.map
    roughnessMap := textures.occlusionRoughnessMetallicMap
    metalnessMap := textures.metallnessMapPath
    opacity := opacityValue cfg name
    transparent := transparentFlag cfg name
    envMapIntensity := 3 / 2
    metalness := 3 / 2
    color := ⟨13 / 10, 13 / 10, 13 / 10⟩ }

/-- A mesh node promoted into `parts`: the same scene object with its material
slot replaced (line 75); every other attribute is carried over untouched. -/
structure Part where
  typeTag : String
  name : String
  position : Vec3
  localScale : ℚ
  vertices : List Vec3
  material : Material
deriving DecidableEq, Repr

/-- The scene-graph data of a node or part — everything but the material slot. -/
structure NodeData where
  typeTag : String
  name : String
  position : Vec3
  localScale : ℚ
  vertices : List Vec3
deriving DecidableEq, Repr

/-- The non-material data of a scene node. -/
def SceneNode.nodeData (n : SceneNode) : NodeData :=
  ⟨n.typeTag, n.name, n.position, n.localScale, n.vertices⟩

/-- The non-material data of a part. -/
def Part.nodeData (p : Part) : NodeData :=
  ⟨p.typeTag, p.name, p.position, p.localScale, p.vertices⟩

/-- Promotion of a mesh node with its newly constructed material. -/
def partOfNode (n : SceneNode) (m : Material) : Part :=
  { typeTag := n.typeTag, name := n.name, position := n.position,
    localScale := n.localScale, vertices := n.vertices, material := m }

/-- The mesh-typed nodes of the traversal (`object.type == "Mesh"`, line 70),
in traversal order. -/
def meshNodes (scene : SceneNode) : List SceneNode :=
  scene.traverseList.filter (fun n => n.typeTag == "Mesh")

/-- Materialize mesh nodes in traversal order; `i` counts the material
allocations made so far, so each constructed material carries a fresh
`instanceId`. -/
def buildPartsFrom (textures : BoatTextures) (cfg : CustomizationConfig) :
    List SceneNode → ℕ → List Part
  | [], _ => []
  | n :: ns, i =>
      partOfNode n (mkPartMaterial textures cfg n.name i)
        :: buildPartsFrom textures cfg ns (i + 1)

/-- An axis-aligned bounding box (`THREE.Box3`) with its `min` and `max`
corners. -/
structure Box3 where
  min : Vec3
  max : Vec3
deriving DecidableEq, Repr

/-- Growing a box to contain one more point (`Box3.expandByPoint`). -/
def growBox (b : Box3) (v : Vec3) : Box3 :=
  ⟨⟨min b.min.x v.x, min b.min.y v.y, min b.min.z v.z⟩,
    ⟨max b.max.x v.x, max b.max.y v.y, max b.max.z v.z⟩⟩

/-- One expansion step; `none` is THREE's empty box. -/
def expandBox : Option Box3 → Vec3 → Option Box3
  | none, v => some ⟨v, v⟩
  | some b, v => some (growBox b v)

/-- `Box3.setFromObject` over the world-space points of the assembled root: the
smallest box containing all of them (`none` when there are none). -/
def boxOfPoints (ps : List Vec3) : Option Box3 :=
  ps.foldl expandBox none

/-- `Box3.getSize`: `max - min` componentwise, zero for the empty box. -/
def boxSize : Option Box3 → Vec3
  | none => ⟨0, 0, 0⟩
  | some b => ⟨b.max.x - b.min.x, b.max.y - b.min.y, b.max.z - b.min.z⟩

/-- `Box3.getCenter`: the midpoint of the corners, zero for the empty box. -/
def boxCenter : Option Box3 → Vec3
  | none => ⟨0, 0, 0⟩
  | some b =>
      ⟨(b.min.x + b.max.x) / 2, (b.min.y + b.max.y) / 2, (b.min.z + b.max.z) / 2⟩

/-- The world-space vertices of a part attached directly under the still
unscaled boat root: the part's own uniform scale, then its translation, applied
to each geometry vertex. -/
def Part.worldVertices (p : Part) : List Vec3 :=
  p.vertices.map (fun v =>
    ⟨p.position.x + p.localScale * v.x, p.position.y + p.localScale * v.y,
      p.position.z + p.localScale * v.z⟩)

/-- A named attachment point (models the `Placeholder` collaborator): key,
display label, and the position snapshot taken at construction. -/
structure Placeholder where
  key : String
  label : String
  position : Vec3
deriving DecidableEq, Repr

/-- The body of the `addPlaceholders` traversal callback (lines 129-161): an
`Object3D`-typed node whose name has a `customization` entry becomes a
placeholder; `if (!config) return` drops any other node silently. -/
def placeholderOfNode (cfg : CustomizationConfig) (n : SceneNode) :
    Option Placeholder :=
  if n.typeTag == "Object3D" then
    match cfg.customization n.name with
    | none => none
    | some c => some { key := n.name, label := c.placeholderLabel, position := n.position }
  else none

/-- `addPlaceholders` (lines 124-166): the placeholders collected over the
second `gltf.scene.traverse`, in traversal order. This pass runs after
`addParts` executed `this.add(...this.parts)`, which reparented every mesh
subtree out of the scene, so the traversal it sees is the pruned one. -/
def buildPlaceholders (cfg : CustomizationConfig) (scene : SceneNode) :
    List Placeholder :=
  scene.traverseListPruned.filterMap (placeholderOfNode cfg)

/-- The flag settings `prepareTextures` applies to one texture (lines 170-171):
`flipY = false` and `generateMipmaps = false`; nothing else is touched. -/
def prepareTexture (t : Texture) : Texture :=
  { t with flipY := false, generateMipmaps := false }

/-- `prepareTextures` (lines 168-174): both flags disabled on every texture of
the bundle; the updated bundle is the state the chained calls continue with. -/
def prepareTextures (textures : BoatTextures) : BoatTextures :=
  { map := prepareTexture textures.map
    occlusionRoughnessMetallicMap := prepareTexture textures.occlusionRoughnessMetallicMap
    metallnessMapPath := prepareTexture textures.metallnessMapPath }

/-- The assembled `Boat` state. `rootScaleSq` is the square of the uniform
scale the source sets on the aggregate root (`const scale = 2 / Math.hypot(...)`;
`this.scale.setScalar(scale)`, lines 118-119): the square `4 / normSq size` is
the exact-rational representative of that nonnegative scale, and the division
is performed unconditionally — the source has no guard for a zero norm. -/
structure Boat where
  parts : List Part
  placeholders : List Placeholder
  boundingBox : Option Box3
  size : Vec3
  center : Vec3
  rootScaleSq : ℚ
  textures : BoatTextures
  customizationConfig : CustomizationConfig

/-- `addParts` (lines 54-122): promote the mesh nodes of the traversal in
order, then — strictly after all parts are attached and before any scaling —
compute the bounding box of the assembled root, its size and center, and the
root scale from the size's norm. -/
def addPartsData (textures : BoatTextures) (cfg : CustomizationConfig)
    (scene : SceneNode) : List Part × Option Box3 × Vec3 × Vec3 × ℚ :=
  let parts := buildPartsFrom textures cfg (meshNodes scene) 0
  let bbox := boxOfPoints (parts.flatMap Part.worldVertices)
  let size := boxSize bbox
  let center := boxCenter bbox
  (parts, bbox, size, center, 4 / size.normSq)

/-- The `Boat` constructor (lines 32-52):
`this.prepareTextures().addParts(boatGLTF).addPlaceholders(boatGLTF)`. -/
def Boat.construct (scene : SceneNode) (textures : BoatTextures)
    (cfg : CustomizationConfig) : Boat :=
  let tex := prepareTextures textures
  match addPartsData tex cfg scene with
  | (parts, bbox, size, center, s2) =>
      { parts := parts
        placeholders := buildPlaceholders cfg scene
        boundingBox := bbox
        size := size
        center := center
        rootScaleSq := s2
        textures := tex
        customizationConfig := cfg }

/-- `getPartByName` (lines 181-183): first part whose name equals the argument;
the source's implicit `undefined` on a miss is `none`. -/
def Boat.getPartByName (b : Boat) (partName : String) : Option Part :=
  b.parts.find? (fun part => part.name == partName)

/-- One search criterion of `getMatchingParts`: an exact-name string or a
pattern (the pattern's match test on a name, abstracting the regex engine). -/
inductive SearchOption : Type where
  | exactName (s : String)
  | pat (test : String → Bool)

/-- One criterion applied to a part name (lines 205-207):
`typeof option == "string" ? part.name == option : !!part.name.match(option)`. -/
def SearchOption.matchesName : SearchOption → String → Bool
  | .exactName s, n => n == s
  | .pat t, n => t n

/-- `getMatchingParts` (lines 202-210): the filter of `parts` keeping a part
when some criterion matches its name. -/
def Boat.getMatchingParts (b : Boat) (searchOptions : List SearchOption) :
    List Part :=
  b.parts.filter (fun part => searchOptions.any (fun o => o.matchesName part.name))

/-- One release call made by `dispose` (lines 239-245). -/
inductive DisposeEvent : Type where
  | geometryDispose (partName : String)
  | materialDispose (partName : String) (materialId : ℕ)
  | placeholderDispose (key : String)
deriving DecidableEq, Repr

/-- The sequence of release calls one run of `dispose` performs: for each part
(via `forEachPart`, in order) its geometry's then its material's `dispose()`,
then for each placeholder (in order) its own `dispose()`. -/
def disposeCalls (b : Boat) : List DisposeEvent :=
  (b.parts.flatMap fun p =>
      [DisposeEvent.geometryDispose p.name,
        DisposeEvent.materialDispose p.name p.material.instanceId])
    ++ b.placeholders.map fun ph => DisposeEvent.placeholderDispose ph.key

/-- `dispose` (lines 239-245): emits the release calls; no field of the boat is
cleared and no disposed flag exists, so the state component is returned
unchanged. -/
def Boat.dispose (b : Boat) : Boat × List DisposeEvent :=
  (b, disposeCalls b)

/-! ## Helper lemmas -/

theorem construct_parts_def (scene : SceneNode) (textures : BoatTextures)
    (cfg : CustomizationConfig) :
    (Boat.construct scene textures cfg).parts
      = buildPartsFrom (prepareTextures textures) cfg (meshNodes scene) 0 := rfl

theorem construct_placeholders_def (scene : SceneNode) (textures : BoatTextures)
    (cfg : CustomizationConfig) :
    (Boat.construct scene textures cfg).placeholders = buildPlaceholders cfg scene := rfl

theorem construct_boundingBox_def (scene : SceneNode) (textures : BoatTextures)
    (cfg : CustomizationConfig) :
    (Boat.construct scene textures cfg).boundingBox
      = boxOfPoints (((Boat.construct scene textures cfg).parts).flatMap Part.worldVertices) := rfl

theorem construct_size_def (scene : SceneNode) (textures : BoatTextures)
    (cfg : CustomizationConfig) :
    (Boat.construct scene textures cfg).size
      = boxSize ((Boat.construct scene textures cfg).boundingBox) := rfl

theorem construct_center_def (scene : SceneNode) (textures : BoatTextures)
    (cfg : CustomizationConfig) :
    (Boat.construct scene textures cfg).center
      = boxCenter ((Boat.construct scene textures cfg).boundingBox) := rfl

theorem construct_rootScaleSq_def (scene : SceneNode) (textures : BoatTextures)
    (cfg : CustomizationConfig) :
    (Boat.construct scene textures cfg).rootScaleSq
      = 4 / ((Boat.construct scene textures cfg).size.normSq) := rfl

theorem construct_textures_def (scene : SceneNode) (textures : BoatTextures)
    (cfg : CustomizationConfig) :
    (Boat.construct scene textures cfg).textures = prepareTextures textures := rfl

theorem partOfNode_nodeData (n : SceneNode) (m : Material) :
    (partOfNode n m).nodeData = n.nodeData := rfl

theorem buildPartsFrom_map_nodeData (textures : BoatTextures)
    (cfg : CustomizationConfig) :
    ∀ (ns : List SceneNode) (i : ℕ),
      (buildPartsFrom textures cfg ns i).map Part.nodeData = ns.map SceneNode.nodeData := by
  intro ns
  induction ns with
  | nil => intro i; rfl
  | cons n ns ih =>
      intro i
      simp only [buildPartsFrom, List.map_cons, partOfNode_nodeData, ih]

theorem buildPartsFrom_map_instanceId (textures : BoatTextures)
    (cfg : CustomizationConfig) :
    ∀ (ns : List SceneNode) (i : ℕ),
      (buildPartsFrom textures cfg ns i).map (fun p => p.material.instanceId)
        = List.range' i ns.length := by
  intro ns
  induction ns with
  | nil => intro i; rfl
  | cons n ns ih =>
      intro i
      simp only [buildPartsFrom, List.map_cons, List.length_cons, List.range'_succ, ih]
      rfl

theorem buildPartsFrom_material_fields (textures : BoatTextures)
    (cfg : CustomizationConfig) :
    ∀ (ns : List SceneNode) (i : ℕ) (p : Part), p ∈ buildPartsFrom textures cfg ns i →
      p.material.opacity = opacityValue cfg p.name
        ∧ p.material.transparent = transparentFlag cfg p.name := by
  intro ns
  induction ns with
  | nil => intro i p hp; cases hp
  | cons n ns ih =>
      intro i p hp
      rcases List.mem_cons.mp hp with h | h
      · subst h; exact ⟨rfl, rfl⟩
      · exact ih (i + 1) p h

theorem buildPartsFrom_map_localScale (textures : BoatTextures)
    (cfg : CustomizationConfig) :
    ∀ (ns : List SceneNode) (i : ℕ),
      (buildPartsFrom textures cfg ns i).map Part.localScale
        = ns.map SceneNode.localScale := by
  intro ns
  induction ns with
  | nil => intro i; rfl
  | cons n ns ih =>
      intro i
      simp only [buildPartsFrom, List.map_cons, ih]
      rfl

/-! ## C1 -/

/-- C1: after construction, `parts` has exactly one entry per mesh-typed node of
the scene graph's traversal, carrying that node's data in traversal order, and
the freshly allocated materials are pairwise distinct instances (no two parts
share a material's `instanceId`). -/
theorem boat_parts_assembly (scene : SceneNode) (textures : BoatTextures)
    (cfg : CustomizationConfig) :
    (Boat.construct scene textures cfg).parts.length
        = (scene.traverseList.filter fun n => n.typeTag == "Mesh").length
      ∧ (Boat.construct scene textures cfg).parts.map Part.nodeData
        = (scene.traverseList.filter fun n => n.typeTag == "Mesh").map SceneNode.nodeData
      ∧ (Boat.construct scene textures cfg).parts.Pairwise
          (fun p q => p.material.instanceId ≠ q.material.instanceId) := by
  rw [construct_parts_def]
  refine ⟨?_, ?_, ?_⟩
  · have h := buildPartsFrom_map_nodeData (prepareTextures textures) cfg (meshNodes scene) 0
    have := congrArg List.length h
    simpa [meshNodes] using this
  · simpa [meshNodes] using
      buildPartsFrom_map_nodeData (prepareTextures textures) cfg (meshNodes scene) 0
  · have h := buildPartsFrom_map_instanceId (prepareTextures textures) cfg (meshNodes scene) 0
    have hno : ((buildPartsFrom (prepareTextures textures) cfg (meshNodes scene) 0).map
        (fun p => p.material.instanceId)).Nodup := by
      rw [h]; exact List.nodup_range' _ _ _ Nat.one_pos
    exact List.pairwise_map.mp hno

/-! ## C3 -/

theorem placeholder_keys_of_list (cfg : CustomizationConfig) :
    ∀ ns : List SceneNode,
      (ns.filterMap (placeholderOfNode cfg)).map Placeholder.key
        = (((ns.filter fun n => n.typeTag == "Object3D").filter
            fun n => (cfg.customization n.name).isSome).map SceneNode.name) := by
  intro ns
  induction ns with
  | nil => rfl
  | cons n ns ih =>
      by_cases ht : n.typeTag == "Object3D"
      · cases hc : cfg.customization n.name with
        | none => simp [placeholderOfNode, ht, hc, ih]
        | some c => simp [placeholderOfNode, ht, hc, ih]
      · simp [placeholderOfNode, Bool.of_not_eq_true ht, ih]

mutual

theorem traverseListPruned_sublist :
    ∀ n : SceneNode, n.traverseListPruned.Sublist n.traverseList
  | .mk t nm p s v cs => by
      rw [SceneNode.traverseListPruned, SceneNode.traverseList]
      exact List.cons_sublist_cons.mpr (traverseChildrenPruned_sublist cs)

theorem traverseChildrenPruned_sublist :
    ∀ cs : List SceneNode, (traverseChildrenPruned cs).Sublist (traverseChildren cs)
  | [] => List.Sublist.refl _
  | c :: cs => by
      rw [traverseChildrenPruned, traverseChildren]
      by_cases h : c.typeTag == "Mesh"
      · rw [if_pos h]
        exact List.Sublist.append (List.nil_sublist _) (traverseChildrenPruned_sublist cs)
      · rw [if_neg h]
        exact List.Sublist.append (traverseListPruned_sublist c)
          (traverseChildrenPruned_sublist cs)

end

/-- C3 (amended): `placeholders` holds exactly the `Object3D`-typed (plain
transform) nodes still visited by the second traversal — nodes inside a
subtree rooted at a mesh node were reparented out of the scene by
`this.add(...this.parts)` and are skipped — whose name has a `customization`
entry, in traversal order; its length is still at most the number of transform
nodes of the whole graph, every placeholder's label comes from its matching
entry, and an unmatched transform node contributes nothing (no error path). -/
theorem boat_placeholders_assembly_pruned (scene : SceneNode)
    (textures : BoatTextures) (cfg : CustomizationConfig) :
    (Boat.construct scene textures cfg).placeholders.map Placeholder.key
        = (((scene.traverseListPruned.filter fun n => n.typeTag == "Object3D").filter
            fun n => (cfg.customization n.name).isSome).map SceneNode.name)
      ∧ (Boat.construct scene textures cfg).placeholders.length
        ≤ (scene.traverseList.filter fun n => n.typeTag == "Object3D").length
      ∧ ∀ ph ∈ (Boat.construct scene textures cfg).placeholders,
          ∃ e, cfg.customization ph.key = some e ∧ ph.label = e.placeholderLabel := by
  rw [construct_placeholders_def]
  have hkeys := placeholder_keys_of_list cfg scene.traverseListPruned
  refine ⟨hkeys, ?_, ?_⟩
  · have hlen : (buildPlaceholders cfg scene).length
        = (((scene.traverseListPruned.filter fun n => n.typeTag == "Object3D").filter
            fun n => (cfg.customization n.name).isSome)).length := by
      have := congrArg List.length hkeys
      simpa [buildPlaceholders] using this
    rw [hlen]
    calc ((scene.traverseListPruned.filter fun n => n.typeTag == "Object3D").filter
            fun n => (cfg.customization n.name).isSome).length
        ≤ (scene.traverseListPruned.filter fun n => n.typeTag == "Object3D").length :=
          List.length_filter_le _ _
      _ ≤ (scene.traverseList.filter fun n => n.typeTag == "Object3D").length :=
          List.Sublist.length_le
            (List.Sublist.filter _ (traverseListPruned_sublist scene))
  · intro ph hph
    rcases List.mem_filterMap.mp hph with ⟨n, _, hn⟩
    unfold placeholderOfNode at hn
    by_cases ht : n.typeTag == "Object3D"
    · rw [if_pos ht] at hn
      cases hc : cfg.customization n.name with
      | none => rw [hc] at hn; cases hn
      | some c =>
          rw [hc] at hn
          cases hn
          exact ⟨c, hc, rfl⟩
    · rw [if_neg ht] at hn; cases hn

/-! ## C2 -/

/-- Containment of a point in a box, componentwise. -/
def inBox (b : Box3) (v : Vec3) : Prop :=
  b.min.x ≤ v.x ∧ v.x ≤ b.max.x ∧ b.min.y ≤ v.y ∧ v.y ≤ b.max.y
    ∧ b.min.z ≤ v.z ∧ v.z ≤ b.max.z

theorem inBox_growBox_of (b : Box3) (w v : Vec3) (h : inBox b v) :
    inBox (growBox b w) v := by
  obtain ⟨h1, h2, h3, h4, h5, h6⟩ := h
  exact ⟨(min_le_left _ _).trans h1, h2.trans (le_max_left _ _),
    (min_le_left _ _).trans h3, h4.trans (le_max_left _ _),
    (min_le_left _ _).trans h5, h6.trans (le_max_left _ _)⟩

theorem inBox_growBox_self (b : Box3) (w : Vec3) : inBox (growBox b w) w :=
  ⟨min_le_right _ _, le_max_right _ _, min_le_right _ _, le_max_right _ _,
    min_le_right _ _, le_max_right _ _⟩

theorem inBox_point (v : Vec3) : inBox ⟨v, v⟩ v :=
  ⟨le_refl _, le_refl _, le_refl _, le_refl _, le_refl _, le_refl _⟩

theorem foldl_expandBox_grows :
    ∀ (ps : List Vec3) (b : Box3),
      ∃ c, ps.foldl expandBox (some b) = some c ∧ ∀ v, inBox b v → inBox c v := by
  intro ps
  induction ps with
  | nil => exact fun b => ⟨b, rfl, fun _ h => h⟩
  | cons w ps ih =>
      intro b
      obtain ⟨c, hc, hmono⟩ := ih (growBox b w)
      exact ⟨c, hc, fun v h => hmono v (inBox_growBox_of b w v h)⟩

theorem foldl_expandBox_mem :
    ∀ (ps : List Vec3) (acc : Option Box3) (v : Vec3), v ∈ ps →
      ∃ c, ps.foldl expandBox acc = some c ∧ inBox c v := by
  intro ps
  induction ps with
  | nil => intro acc v hv; cases hv
  | cons w ps ih =>
      intro acc v hv
      rcases List.mem_cons.mp hv with h | h
      · subst h
        cases acc with
        | none =>
            obtain ⟨c, hc, hmono⟩ := foldl_expandBox_grows ps ⟨v, v⟩
            exact ⟨c, hc, hmono v (inBox_point v)⟩
        | some b =>
            obtain ⟨c, hc, hmono⟩ := foldl_expandBox_grows ps (growBox b v)
            exact ⟨c, hc, hmono v (inBox_growBox_self b v)⟩
      · exact ih (expandBox acc w) v h

theorem distSq_le_of_inBox (b : Box3) (v : Vec3) (h : inBox b v) :
    distSq v (boxCenter (some b)) ≤ (boxSize (some b)).normSq / 4 := by
  obtain ⟨h1, h2, h3, h4, h5, h6⟩ := h
  simp only [distSq, boxCenter, boxSize, Vec3.normSq]
  nlinarith [mul_nonneg (sub_nonneg.mpr h1) (sub_nonneg.mpr h2),
    mul_nonneg (sub_nonneg.mpr h3) (sub_nonneg.mpr h4),
    mul_nonneg (sub_nonneg.mpr h5) (sub_nonneg.mpr h6)]

theorem sqrt_four_real : Real.sqrt 4 = 2 := by
  rw [show (4 : ℝ) = 2 ^ 2 by norm_num]
  exact Real.sqrt_sq (by norm_num)

/-- C2: the source computes `scale = 2 / hypot(size)` and applies it to the
aggregate root. In the embedding the root scale is tracked through its square:
(i) unconditionally — for every input, degenerate ones included, so the
division is not guarded against a zero norm — the squared root scale equals
`4 / normSq size`; (ii) its square root is `2 / ‖size‖`, the claimed scale;
(iii) the parts keep their own source scales, so the transform is applied to
the root only; (iv) for every input with a positive-norm size vector, every
world-space vertex of the scaled model lies within squared distance 1 of the
scaled center (`scale² · distSq ≤ 1`), i.e. the model fits in a sphere of
radius 1. -/
theorem boat_scale_normalization (scene : SceneNode) (textures : BoatTextures)
    (cfg : CustomizationConfig) :
    (Boat.construct scene textures cfg).rootScaleSq
        = 4 / ((Boat.construct scene textures cfg).size.normSq)
      ∧ Real.sqrt (((Boat.construct scene textures cfg).rootScaleSq : ℚ) : ℝ)
        = 2 / Real.sqrt ((((Boat.construct scene textures cfg).size.normSq : ℚ) : ℝ))
      ∧ (Boat.construct scene textures cfg).parts.map Part.localScale
        = (meshNodes scene).map SceneNode.localScale
      ∧ (0 < (Boat.construct scene textures cfg).size.normSq →
          ∀ p ∈ (Boat.construct scene textures cfg).parts,
            ∀ v ∈ p.worldVertices,
              (Boat.construct scene textures cfg).rootScaleSq
                * distSq v ((Boat.construct scene textures cfg).center) ≤ 1) := by
  refine ⟨construct_rootScaleSq_def scene textures cfg, ?_, ?_, ?_⟩
  · rw [construct_rootScaleSq_def]
    push_cast
    rw [Real.sqrt_div (by norm_num) _, sqrt_four_real]
  · rw [construct_parts_def]
    exact buildPartsFrom_map_localScale (prepareTextures textures) cfg (meshNodes scene) 0
  · intro hpos p hp v hv
    have hmem : v ∈ ((Boat.construct scene textures cfg).parts).flatMap Part.worldVertices :=
      List.mem_flatMap.mpr ⟨p, hp, hv⟩
    obtain ⟨c, hc, hin⟩ := foldl_expandBox_mem _ none v hmem
    have hbox : (Boat.construct scene textures cfg).boundingBox = some c := by
      rw [construct_boundingBox_def]; exact hc
    have hd : distSq v ((Boat.construct scene textures cfg).center)
        ≤ ((Boat.construct scene textures cfg).size.normSq) / 4 := by
      rw [construct_center_def, construct_size_def, hbox]
      exact distSq_le_of_inBox c v hin
    rw [construct_rootScaleSq_def]
    have hn : (0 : ℚ) < (Boat.construct scene textures cfg).size.normSq := hpos
    calc 4 / (Boat.construct scene textures cfg).size.normSq
          * distSq v ((Boat.construct scene textures cfg).center)
        ≤ 4 / (Boat.construct scene textures cfg).size.normSq
          * (((Boat.construct scene textures cfg).size.normSq) / 4) := by
          exact mul_le_mul_of_nonneg_left hd (by positivity)
      _ = 1 := by field_simp

/-! ## C5 -/

/-- C5: in the source's transparency condition, the `!== undefined` conjunct on
the `|| 1`-defaulted lookup is structurally dead: for every configuration and
node name it evaluates to true, and the whole condition is extensionally equal
to the same computation with the definedness check removed. -/
theorem transparency_defined_check_dead (cfg : CustomizationConfig) (nm : String) :
    jsIsDefined (jsOr (cfg.transparentParts nm) (some 1)) = true
      ∧ transparentFlag cfg nm = transparentFlagSimple cfg nm := by
  cases h : cfg.transparentParts nm with
  | none =>
      simp [jsIsDefined, jsOr, jsTruthy, transparentFlag, transparentFlagSimple, h]
  | some v =>
      by_cases hv : v = 0 <;>
        simp [jsIsDefined, jsOr, jsTruthy, transparentFlag, transparentFlagSimple, h, hv]

/-! ## C4 -/

theorem opacityValue_eq_getD (cfg : CustomizationConfig) (nm : String)
    (h : cfg.transparentParts nm ≠ some 0) :
    opacityValue cfg nm = (cfg.transparentParts nm).getD 1 := by
  cases hc : cfg.transparentParts nm with
  | none => simp [opacityValue, jsOr, jsTruthy, hc]
  | some v =>
      have hv : v ≠ 0 := fun e => h (by rw [hc, e])
      simp [opacityValue, jsOr, jsTruthy, hc, hv]

theorem transparentFlag_lt_iff (cfg : CustomizationConfig) (nm : String)
    (h : cfg.transparentParts nm ≠ some 0) :
    (transparentFlag cfg nm = true ↔ (cfg.transparentParts nm).getD 1 < 1) := by
  cases hc : cfg.transparentParts nm with
  | none =>
      simp [transparentFlag, jsIsDefined, jsOr, jsTruthy, jsLtNum, hc]
  | some v =>
      have hv : v ≠ 0 := fun e => h (by rw [hc, e])
      simp [transparentFlag, jsIsDefined, jsOr, jsTruthy, jsLtNum, hc, hv]

/-- C4: for a part whose configured opacity is not the (falsy) literal 0 — the
spec's `transparentParts` domain is `(0..1]` — the material's opacity is the
value looked up by node name, defaulting to 1 when absent, and transparency is
enabled exactly when that value is strictly below 1; so an absent entry yields
opacity 1 with transparency disabled, and an entry 0.5 yields opacity 0.5 with
transparency enabled. -/
theorem part_opacity_from_config (scene : SceneNode) (textures : BoatTextures)
    (cfg : CustomizationConfig) (p : Part)
    (hp : p ∈ (Boat.construct scene textures cfg).parts)
    (hnz : cfg.transparentParts p.name ≠ some 0) :
    p.material.opacity = (cfg.transparentParts p.name).getD 1
      ∧ (p.material.transparent = true ↔ (cfg.transparentParts p.name).getD 1 < 1) := by
  rw [construct_parts_def] at hp
  have hm := buildPartsFrom_material_fields (prepareTextures textures) cfg
    (meshNodes scene) 0 p hp
  constructor
  · rw [hm.1]; exact opacityValue_eq_getD cfg p.name hnz
  · rw [hm.2]; exact transparentFlag_lt_iff cfg p.name hnz

/-! ## C9 -/

/-- C9: a mesh node whose name is mapped to 0 in `transparentParts` gets
opacity 1 with transparency disabled — the `|| 1` fallback swallows the falsy 0
— and the constructed material is identical to the one an absent entry would
produce, for any configuration lacking the key. -/
theorem part_opacity_zero_entry (scene : SceneNode) (textures : BoatTextures)
    (cfg : CustomizationConfig) (p : Part)
    (hp : p ∈ (Boat.construct scene textures cfg).parts)
    (h0 : cfg.transparentParts p.name = some 0) :
    p.material.opacity = 1 ∧ p.material.transparent = false
      ∧ ∀ (cfg' : CustomizationConfig) (tex' : BoatTextures) (i : ℕ),
          cfg'.transparentParts p.name = none →
            mkPartMaterial tex' cfg p.name i = mkPartMaterial tex' cfg' p.name i := by
  rw [construct_parts_def] at hp
  have hm := buildPartsFrom_material_fields (prepareTextures textures) cfg
    (meshNodes scene) 0 p hp
  refine ⟨?_, ?_, ?_⟩
  · rw [hm.1]; simp [opacityValue, jsOr, jsTruthy, h0]
  · rw [hm.2]; simp [transparentFlag, jsIsDefined, jsOr, jsTruthy, jsLtNum, h0]
  · intro cfg' tex' i hnone
    simp [mkPartMaterial, opacityValue, transparentFlag, jsIsDefined, jsOr,
      jsTruthy, jsLtNum, h0, hnone]

/-! ## C6 -/

theorem find?_name_split (nm : String) :
    ∀ (l : List Part) (p : Part), l.find? (fun q => q.name == nm) = some p →
      ∃ l₁ l₂, l = l₁ ++ p :: l₂ ∧ ∀ q ∈ l₁, q.name ≠ nm := by
  intro l
  induction l with
  | nil => intro p hp; cases hp
  | cons a t ih =>
      intro p hp
      cases h : (a.name == nm) with
      | true =>
          simp only [List.find?_cons, h] at hp
          cases hp
          exact ⟨[], t, rfl, by simp⟩
      | false =>
          simp only [List.find?_cons, h] at hp
          obtain ⟨l₁, l₂, hsplit, hnone⟩ := ih p hp
          refine ⟨a :: l₁, l₂, by rw [hsplit]; rfl, ?_⟩
          intro q hq
          rcases List.mem_cons.mp hq with rfl | hq
          · exact beq_eq_false_iff_ne.mp h
          · exact hnone q hq

/-- C6: `getPartByName` returns the first part of `parts` whose name equals the
argument when one exists (everything before it in `parts` has a different
name), and the not-found result `none` exactly when no part matches — in
particular on an empty collection. -/
theorem getPartByName_first_or_none (b : Boat) (nm : String) :
    (∀ p, b.getPartByName nm = some p →
        p.name = nm ∧ ∃ l₁ l₂, b.parts = l₁ ++ p :: l₂ ∧ ∀ q ∈ l₁, q.name ≠ nm)
      ∧ (b.getPartByName nm = none ↔ ∀ p ∈ b.parts, p.name ≠ nm) := by
  constructor
  · intro p hp
    refine ⟨?_, find?_name_split nm b.parts p hp⟩
    have := List.find?_some hp
    exact beq_iff_eq.mp this
  · simp [Boat.getPartByName, List.find?_eq_none]

/-! ## C7 -/

theorem count_filter_ite (q : Part → Bool) (a : Part) (l : List Part) :
    (l.filter q).count a = if q a then l.count a else 0 := by
  by_cases hqa : q a = true
  · rw [if_pos hqa]
    exact List.count_filter hqa
  · rw [if_neg hqa, List.count_eq_zero]
    intro hmem
    exact hqa (List.mem_filter.mp hmem).2

/-- C7: `getMatchingParts` returns exactly the parts whose name satisfies at
least one criterion (OR across criteria), as a sublist of `parts` (so in
`parts` order), and each part of `parts` occurring as often as it does there —
never multiplied by the number of criteria it matches — or not at all. -/
theorem getMatchingParts_filter_or (b : Boat) (opts : List SearchOption) :
    (b.getMatchingParts opts).Sublist b.parts
      ∧ (∀ p, p ∈ b.getMatchingParts opts
          ↔ p ∈ b.parts ∧ ∃ o ∈ opts, o.matchesName p.name = true)
      ∧ (∀ p, (b.getMatchingParts opts).count p
          = if opts.any (fun o => o.matchesName p.name) then b.parts.count p else 0) := by
  refine ⟨List.filter_sublist _, ?_, ?_⟩
  · intro p
    simp [Boat.getMatchingParts, List.mem_filter, List.any_eq_true]
  · intro p
    exact count_filter_ite _ p b.parts

/-! ## C8 -/

/-- C8: texture preparation disables the vertical-flip flag and mipmap
generation on each of the three textures supplied at construction, leaves every
other piece of texture state (`payload`) unchanged, and the prepared bundle is
exactly the state construction keeps for the chained calls. -/
theorem prepareTextures_flags_only (scene : SceneNode) (ts : BoatTextures)
    (cfg : CustomizationConfig) :
    ((prepareTextures ts).map.flipY = false
        ∧ (prepareTextures ts).map.generateMipmaps = false
        ∧ (prepareTextures ts).map.payload = ts.map.payload)
      ∧ ((prepareTextures ts).occlusionRoughnessMetallicMap.flipY = false
        ∧ (prepareTextures ts).occlusionRoughnessMetallicMap.generateMipmaps = false
        ∧ (prepareTextures ts).occlusionRoughnessMetallicMap.payload
            = ts.occlusionRoughnessMetallicMap.payload)
      ∧ ((prepareTextures ts).metallnessMapPath.flipY = false
        ∧ (prepareTextures ts).metallnessMapPath.generateMipmaps = false
        ∧ (prepareTextures ts).metallnessMapPath.payload = ts.metallnessMapPath.payload)
      ∧ (Boat.construct scene ts cfg).textures = prepareTextures ts :=
  ⟨⟨rfl, rfl, rfl⟩, ⟨rfl, rfl, rfl⟩, ⟨rfl, rfl, rfl⟩, rfl⟩

/-! ## C10 -/

theorem flatMap_release_length (l : List Part) :
    (l.flatMap fun p =>
        [DisposeEvent.geometryDispose p.name,
          DisposeEvent.materialDispose p.name p.material.instanceId]).length
      = 2 * l.length := by
  induction l with
  | nil => rfl
  | cons a t ih =>
      simp only [List.flatMap_cons, List.length_append, List.length_cons, ih,
        List.length_nil, List.length_cons]
      ring

/-- C10: one `dispose` run makes a geometry release and a material release call
for every entry of `parts` and a disposal call for every entry of
`placeholders` — `2·|parts| + |placeholders|` calls in all — while the boat
state, `parts` and `placeholders` included, is left unchanged; a second
`dispose` on the returned state therefore performs the exact same release calls
again instead of no-opping. -/
theorem dispose_releases_and_repeats (b : Boat) :
    (b.dispose).1 = b
      ∧ (b.dispose).2.length = 2 * b.parts.length + b.placeholders.length
      ∧ (∀ p ∈ b.parts, DisposeEvent.geometryDispose p.name ∈ (b.dispose).2
          ∧ DisposeEvent.materialDispose p.name p.material.instanceId ∈ (b.dispose).2)
      ∧ (∀ ph ∈ b.placeholders,
          DisposeEvent.placeholderDispose ph.key ∈ (b.dispose).2)
      ∧ (((b.dispose).1).dispose).2 = (b.dispose).2 := by
  refine ⟨rfl, ?_, ?_, ?_, rfl⟩
  · simp only [Boat.dispose, disposeCalls, List.length_append, List.length_map,
      flatMap_release_length]
  · intro p hp
    constructor
    · exact List.mem_append.mpr (Or.inl (List.mem_flatMap.mpr ⟨p, hp, by simp⟩))
    · exact List.mem_append.mpr (Or.inl (List.mem_flatMap.mpr ⟨p, hp, by simp⟩))
  · intro ph hph
    exact List.mem_append.mpr (Or.inr (List.mem_map.mpr ⟨ph, hph, rfl⟩))

/-! ## Concrete witness inputs -/

/-- A sample texture with both flags still enabled. -/
def demoTexture (k : ℕ) : Texture :=
  ⟨k, true, true⟩

/-- A sample three-slot texture bundle. -/
def demoTextures : BoatTextures :=
  ⟨demoTexture 0, demoTexture 1, demoTexture 2⟩

/-- A sample mesh node named Hull. -/
def demoHullNode : SceneNode :=
  .mk "Mesh" "Hull" ⟨0, 0, 0⟩ 1 [⟨0, 0, 0⟩, ⟨2, 0, 0⟩] []

/-- A sample mesh node named Mast. -/
def demoMastNode : SceneNode :=
  .mk "Mesh" "Mast" ⟨0, 0, 0⟩ 1 [⟨0, 1, 0⟩] []

/-- A sample scene graph with two mesh nodes under the root. -/
def demoScene : SceneNode :=
  .mk "Scene" "root" ⟨0, 0, 0⟩ 1 [] [demoHullNode, demoMastNode]

/-- A sample configuration mapping Hull to opacity 1/2 and nothing else. -/
def demoCfg : CustomizationConfig :=
  { transparentParts := fun nm => if nm = "Hull" then some (1 / 2) else none
    customization := fun _ => none }

/-- A sample configuration mapping Hull to the falsy opacity 0. -/
def demoCfgZero : CustomizationConfig :=
  { transparentParts := fun nm => if nm = "Hull" then some 0 else none
    customization := fun _ => none }

/-- A transform node named P, nested under a mesh node. -/
def nestedPlaceholderNode : SceneNode :=
  .mk "Object3D" "P" ⟨0, 0, 0⟩ 1 [] []

/-- A mesh node carrying the nested transform node as its child. -/
def nestedMeshNode : SceneNode :=
  .mk "Mesh" "M" ⟨0, 0, 0⟩ 1 [⟨0, 0, 0⟩] [nestedPlaceholderNode]

/-- A scene whose only transform node sits below a mesh node. -/
def nestedScene : SceneNode :=
  .mk "Scene" "root" ⟨0, 0, 0⟩ 1 [] [nestedMeshNode]

/-- A configuration with a customization entry for the nested node P. -/
def nestedCfg : CustomizationConfig :=
  { transparentParts := fun _ => none
    customization := fun nm => if nm = "P" then some ⟨"Anchor P"⟩ else none }

/-- The transform node P has a matching customization entry and appears in the
scene graph's traversal, yet construction yields no placeholder at all: P's
mesh parent was reparented out of the scene by `this.add(...this.parts)`
before the second traversal, so the claim that `placeholders` holds exactly
the matched transform nodes of the graph fails at this input. -/
theorem boat_placeholders_unpruned_cex :
    (Boat.construct nestedScene demoTextures nestedCfg).placeholders = []
      ∧ ((nestedScene.traverseList.filter fun n => n.typeTag == "Object3D").filter
          fun n => (nestedCfg.customization n.name).isSome).map SceneNode.name
        = ["P"] :=
  ⟨rfl, rfl⟩

/-- The Hull part as constructed under `demoCfg`. -/
def demoHullPart : Part :=
  partOfNode demoHullNode (mkPartMaterial (prepareTextures demoTextures) demoCfg "Hull" 0)

/-- The Hull part as constructed under `demoCfgZero`. -/
def demoHullPartZero : Part :=
  partOfNode demoHullNode
    (mkPartMaterial (prepareTextures demoTextures) demoCfgZero "Hull" 0)

theorem demoParts_eq :
    (Boat.construct demoScene demoTextures demoCfg).parts
      = [demoHullPart,
          partOfNode demoMastNode
            (mkPartMaterial (prepareTextures demoTextures) demoCfg "Mast" 1)] := rfl

theorem demoPartsZero_eq :
    (Boat.construct demoScene demoTextures demoCfgZero).parts
      = [demoHullPartZero,
          partOfNode demoMastNode
            (mkPartMaterial (prepareTextures demoTextures) demoCfgZero "Mast" 1)] := rfl

theorem demoHullPart_name : demoHullPart.name = "Hull" := rfl

theorem demoHullPartZero_name : demoHullPartZero.name = "Hull" := rfl

/-- Witness for C4 at the Hull part of the sample boat: opacity 1/2 with
transparency enabled, per the configured entry 0.5. -/
theorem part_opacity_from_config_w :
    demoHullPart.material.opacity = (demoCfg.transparentParts demoHullPart.name).getD 1
      ∧ (demoHullPart.material.transparent = true
          ↔ (demoCfg.transparentParts demoHullPart.name).getD 1 < 1) :=
  part_opacity_from_config demoScene demoTextures demoCfg demoHullPart
    (by rw [demoParts_eq]; exact List.mem_cons_self _ _)
    (by rw [demoHullPart_name]; norm_num [demoCfg])

/-- Witness for C9 at the Hull part of the sample boat with a configured 0:
opacity 1, transparency disabled, materially identical to an absent entry. -/
theorem part_opacity_zero_entry_w :
    demoHullPartZero.material.opacity = 1
      ∧ demoHullPartZero.material.transparent = false
      ∧ ∀ (cfg' : CustomizationConfig) (tex' : BoatTextures) (i : ℕ),
          cfg'.transparentParts demoHullPartZero.name = none →
            mkPartMaterial tex' demoCfgZero demoHullPartZero.name i
              = mkPartMaterial tex' cfg' demoHullPartZero.name i :=
  part_opacity_zero_entry demoScene demoTextures demoCfgZero demoHullPartZero
    (by rw [demoPartsZero_eq]; exact List.mem_cons_self _ _)
    (by rw [demoHullPartZero_name]; simp [demoCfgZero])

end BoatModel
